import Mathlib

/-!
Shallow embedding of the youtube-chapter-download backend
(src/worker.py and src/unnamed/part_000, two near-duplicate copies of the
same FastAPI service) for checking the specification's claims.

Conventions of the embedding:
  - Python floats (chapter timestamps in seconds) are modelled as exact
    rationals; machine integers as Nat/Int.
  - Python dictionary access `d.get(k)` becomes an Option-typed field;
    `d[k]` on a possibly missing key becomes an Except raising a KeyError.
  - `raise`/uncaught exceptions become `Except.error (e : PyExc)`;
    `except Exception as e: raise HTTPException(500, str(e))` becomes a
    wrapper that maps every error to status 500 with detail `pyStr e`.
  - External effects (ffmpeg subprocesses via subprocess.run, os.path.getsize,
    directory listings) are oracles passed in an environment record, and the
    observable actions performed by the handlers are recorded in explicit
    event traces.
-/

/-- One python exception value, as far as this service distinguishes them. -/
inductive PyExc where
  | httpException (status : Nat) (detail : String)
  | keyError (key : String)
  | typeError (msg : String)
  | downloadError (msg : String)
  | calledProcessError (msg : String)
deriving DecidableEq

/-- Python's str(e) for the exceptions above; starlette's HTTPException prints
as "status: detail", KeyError as the repr of the missing key. -/
def pyStr : PyExc → String
  | .httpException s d => toString s ++ ": " ++ d
  | .keyError k => "'" ++ k ++ "'"
  | .typeError m => m
  | .downloadError m => m
  | .calledProcessError m => m

/-- An HTTP error response as FastAPI produces it from an HTTPException that
escapes the handler. -/
structure HttpErr where
  status : Nat
  detail : String
deriving DecidableEq

/-- Two-digit zero padding of a natural number, as in "%02d". -/
def pad2 (n : Nat) : String :=
  if n < 10 then "0" ++ toString n else toString n

/-- Python's f-string "{n:02}" on an int: zero-pad to width two (a negative
number of one digit already has width two including its sign). -/
def int_pad2 (n : Int) : String :=
  if 0 ≤ n ∧ n < 10 then "0" ++ toString n else toString n

/-- Python's int(x) on a float/rational: truncation toward zero. -/
def pyInt (q : ℚ) : Int :=
  q.num.tdiv q.den

/-- Python's % on floats: floor-based remainder, a - b * floor (a / b). -/
def pyFloorMod (a b : ℚ) : ℚ :=
  a - b * ⌊a / b⌋

/-- Python's str(datetime.timedelta(seconds = total)) for an integer number of
seconds: "h:mm:ss", prefixed with "D day(s), " when the normalized day count
(floor division by 86400) is nonzero. -/
def str_timedelta (total : Int) : String :=
  let days := total.fdiv 86400
  let rem := (total.fmod 86400).toNat
  let h := rem / 3600
  let m := rem % 3600 / 60
  let s := rem % 60
  let base := toString h ++ ":" ++ pad2 m ++ ":" ++ pad2 s
  if days = 0 then base
  else toString days ++ (if days = 1 ∨ days = -1 then " day, " else " days, ") ++ base

/-- os.path.basename: the part of the path after the last slash. -/
def basename (p : String) : String :=
  ⟨p.data.foldl (fun acc c => if c = '/' then [] else acc ++ [c]) []⟩

/-- os.path.join of two relative-or-absolute components. -/
def os_path_join (a b : String) : String :=
  if b.data.head? = some '/' then b
  else if a.data.getLast? = some '/' then a ++ b
  else a ++ "/" ++ b

/-- Python's str.endswith. -/
def str_endswith (s suffix : String) : Bool :=
  suffix.data.isSuffixOf s.data

/-- Python's str.replace on character lists, fueled to stay structural:
replace every non-overlapping occurrence of old, left to right. -/
def pyReplaceAux (old new : List Char) : Nat → List Char → List Char
  | 0, l => l
  | fuel + 1, l =>
    match l with
    | [] => []
    | c :: rest =>
      if old ≠ [] ∧ old.isPrefixOf l then
        new ++ pyReplaceAux old new fuel (l.drop old.length)
      else
        c :: pyReplaceAux old new fuel rest

/-- Python's str.replace(old, new) for a nonempty old. -/
def pyReplace (s old new : String) : String :=
  ⟨pyReplaceAux old.data new.data s.data.length s.data⟩

/-- Splitting a path string at slashes, for reasoning about path traversal. -/
def splitSlashAux : List Char → List (List Char)
  | [] => [[]]
  | c :: rest =>
    let r := splitSlashAux rest
    if c = '/' then [] :: r
    else
      match r with
      | [] => [[c]]
      | h :: t => (c :: h) :: t

/-- Path components of a path string. -/
def splitSlash (p : String) : List String :=
  (splitSlashAux p.data).map (fun l => ⟨l⟩)

/-- One step of relative path normalization: "." and empty segments vanish,
".." removes the previous segment. -/
def normStep (acc : List String) (seg : String) : List String :=
  if seg = "" ∨ seg = "." then acc
  else if seg = ".." then acc.dropLast
  else acc ++ [seg]

/-- The list of path segments a relative path actually refers to once "."
and ".." are resolved. -/
def resolvePath (p : String) : List String :=
  (splitSlash p).foldl normStep []

/-- Observable actions performed by the POST /api/extract handlers:
running the retention pruner, creating the job directory, fetching metadata,
downloading the source video, splitting it, fetching the thumbnail and
returning a response. -/
inductive Ev where
  | prune
  | mkJobDir
  | metadataFetch
  | download
  | split
  | thumbnail
  | respond
deriving DecidableEq

/-- One entry of the working directory as the retention pruner sees it:
its name and its filesystem creation time (os.path.getctime). -/
structure DirEntry where
  name : String
  ctime : Nat
deriving DecidableEq

/-- The while-loop of clean_temp_directory / clean_temp_folder: while more
than max_dirs entries remain, pop the first (oldest) entry and delete it.
Returns (deleted entries in deletion order, surviving entries). -/
def cleanLoop (max_dirs : Nat) : List DirEntry → List DirEntry × List DirEntry
  | [] => ([], [])
  | f :: rest =>
    if max_dirs < (f :: rest).length then
      let p := cleanLoop max_dirs rest
      (f :: p.1, p.2)
    else
      ([], f :: rest)

/-- clean_temp_directory(max_dirs) from part_000 (clean_temp_folder in
worker.py is the same logic over files): sort the entries by creation time,
oldest first (Python's list.sort is stable; insertionSort with a reflexive
total order is the same stable sort), then delete from the front until at
most max_dirs remain. Returns (deleted, kept). -/
def clean_temp_directory (folders : List DirEntry) (max_dirs : Nat) :
    List DirEntry × List DirEntry :=
  cleanLoop max_dirs (List.insertionSort (fun a b => a.ctime ≤ b.ctime) folders)

namespace Part0

/-- One raw chapter marker as found in the metadata dict of part_000:
chapter.get("title") and chapter.get("start_time"), either possibly absent. -/
structure RawChapter where
  title : Option String
  start_time : Option ℚ
deriving DecidableEq

/-- One normalized chapter produced by get_chapters: title (defaulted),
start_time as fetched, end_time of the last chapter absent (None). -/
structure Chapter where
  title : String
  start_time : Option ℚ
  end_time : Option ℚ
deriving DecidableEq

/-- The loop body of get_chapters, carrying the 0-based loop index i used
for the default title "Chapter {i+1}"; accessing chapters[i+1]["start_time"]
raises a KeyError when the next marker has no start_time. -/
def getChaptersGo : Nat → List RawChapter → Except String (List Chapter)
  | _, [] => .ok []
  | i, [c] =>
    .ok [{ title := c.title.getD ("Chapter " ++ toString (i + 1)),
           start_time := c.start_time,
           end_time := none }]
  | i, c :: next :: rest =>
    match next.start_time with
    | none => .error "start_time"
    | some e =>
      match getChaptersGo (i + 1) (next :: rest) with
      | .error msg => .error msg
      | .ok tl =>
        .ok ({ title := c.title.getD ("Chapter " ++ toString (i + 1)),
               start_time := c.start_time,
               end_time := some e } :: tl)

/-- get_chapters from part_000, applied to the marker list
video_info.get("chapters", []); for marker i, end_time is marker i+1's
start_time when it exists and None for the last marker. -/
def get_chapters (chapters : List RawChapter) : Except String (List Chapter) :=
  getChaptersGo 0 chapters

/-- get_duration from part_000: "Unknown" when end is None, otherwise
str(timedelta(seconds = int(end - start))). The start parameter is annotated
float in the source but can be None at runtime (a marker without start_time),
in which case end - start raises a TypeError. -/
def get_duration (start end_ : Option ℚ) : Except PyExc String :=
  match end_ with
  | none => .ok "Unknown"
  | some e =>
    match start with
    | none => .error (.typeError "unsupported operand type(s) for -: 'float' and 'NoneType'")
    | some s => .ok (str_timedelta (pyInt (e - s)))

/-- clean_title from part_000: every non-alphanumeric character becomes one
underscore, then the result is truncated to 80 characters
("".join(c if c.isalnum() else "_" for c in title)[:80], with isalnum
read on ASCII). -/
def clean_title (title : String) : String :=
  ⟨(title.data.map (fun c => if c.isAlphanum then c else '_')).take 80⟩

/-- The mp4 output path computed for chapter index i:
os.path.join(output_dir, f-string of i, "_", clean_title, ".mp4"). -/
def mp4Name (dir : String) (i : Nat) (title : String) : String :=
  dir ++ "/" ++ toString i ++ "_" ++ clean_title title ++ ".mp4"

/-- The mp3 output path computed for chapter index i. -/
def mp3Name (dir : String) (i : Nat) (title : String) : String :=
  dir ++ "/" ++ toString i ++ "_" ++ clean_title title ++ ".mp3"

/-- The dict appended to output_files for one successfully trimmed chapter. -/
structure FileDict where
  path : String
  size : ℚ
  duration : String
  mp4_download_url : String
  mp3_download_url : String
deriving DecidableEq

/-- Oracles for the external effects inside split_video_by_chapters:
whether the ffmpeg trim invocation for chapter index i exits zero, whether
the mp3 transcode for chapter index i exits zero, and the file size in MB
reported for a path (get_file_size). -/
structure SplitEnv where
  trimOk : Nat → Bool
  audioOk : Nat → Bool
  sizeMB : String → ℚ

/-- Observable actions of split_video_by_chapters: attempting the trim of
chapter i into an output path, attempting the mp3 transcode of chapter i into
an output path, appending the record of chapter i, and an uncaught exception
escaping the loop. -/
inductive SplitEv where
  | trim (i : Nat) (out : String)
  | audio (i : Nat) (out : String)
  | record (i : Nat) (f : FileDict)
  | raised (e : PyExc)
deriving DecidableEq

/-- The record appended to output_files for chapter index i: the mp4 path,
its size in MB, the human duration and the two download urls built from the
basenames of the job directory and the output files. -/
def mkFileDict (env : SplitEnv) (dir : String) (i : Nat) (c : Chapter) (dur : String) :
    FileDict :=
  { path := mp4Name dir i c.title,
    size := env.sizeMB (mp4Name dir i c.title),
    duration := dur,
    mp4_download_url := "/api/download/" ++ basename dir ++ "/" ++ basename (mp4Name dir i c.title),
    mp3_download_url := "/api/download/" ++ basename dir ++ "/" ++ basename (mp3Name dir i c.title) }

/-- The loop of split_video_by_chapters from part_000, over the 1-based
chapter index i: run the trim (a CalledProcessError is caught and the
chapter is skipped with continue), then run the mp3 transcode (its
CalledProcessError is caught and only logged), then append the record —
whose duration computation raises an uncaught TypeError when start_time is
None while end_time is present, aborting the whole loop. -/
def splitGo (env : SplitEnv) (dir : String) : Nat → List Chapter → List SplitEv
  | _, [] => []
  | i, c :: rest =>
    let mp4 := mp4Name dir i c.title
    let mp3 := mp3Name dir i c.title
    if env.trimOk i then
      match get_duration c.start_time c.end_time with
      | .error e => [.trim i mp4, .audio i mp3, .raised e]
      | .ok dur =>
        .trim i mp4 :: .audio i mp3 :: .record i (mkFileDict env dir i c dur) ::
        splitGo env dir (i + 1) rest
    else
      .trim i mp4 :: splitGo env dir (i + 1) rest

/-- The duration string of a chapter whose start_time is present (the only
case in which the record of the chapter is reached without a TypeError). -/
def durOf (c : Chapter) : String :=
  match get_duration c.start_time c.end_time with
  | .ok d => d
  | .error _ => ""

/-- The events one loop iteration of splitGo contributes for a chapter whose
start_time is present: trim only when the trim fails, otherwise trim, audio
attempt and the appended record. -/
def stepEvs (env : SplitEnv) (dir : String) (i : Nat) (c : Chapter) : List SplitEv :=
  if env.trimOk i then
    [.trim i (mp4Name dir i c.title), .audio i (mp3Name dir i c.title),
     .record i (mkFileDict env dir i c (durOf c))]
  else
    [.trim i (mp4Name dir i c.title)]

/-- The event trace of split_video_by_chapters(input_path, chapters,
output_dir); the input_path parameter only feeds the ffmpeg command line. -/
def split_events (env : SplitEnv) (input_path : String) (chapters : List Chapter)
    (output_dir : String) : List SplitEv :=
  splitGo env output_dir 1 chapters

/-- The records appended by a split run, in order. -/
def splitFiles : List SplitEv → List FileDict
  | [] => []
  | .record _ f :: rest => f :: splitFiles rest
  | _ :: rest => splitFiles rest

/-- The first uncaught exception of a split run, if any. -/
def splitRaised : List SplitEv → Option PyExc
  | [] => none
  | .raised e :: _ => some e
  | _ :: rest => splitRaised rest

/-- split_video_by_chapters' return value: the list of per-chapter dicts. -/
def split_video_by_chapters (env : SplitEnv) (input_path : String)
    (chapters : List Chapter) (output_dir : String) : List FileDict :=
  splitFiles (split_events env input_path chapters output_dir)

/-- The info_dict returned by ydl.extract_info in part_000, as far as the
handler reads it. -/
structure P0Info where
  title : Option String
  thumbnail : Option String
  chapters : Option (List RawChapter)
  filename : String
deriving DecidableEq

/-- Environment of one run of part_000's /api/extract handler: the generated
uuid, the outcome of ydl.extract_info (which both fetches metadata and
downloads), the split oracles and whether the thumbnail curl exits zero. -/
structure P0Env where
  uid : String
  extractInfo : Except String P0Info
  split : SplitEnv
  thumbOk : Bool

/-- The JSON body part_000's handler returns on success. -/
structure P0Resp where
  videoId : String
  title : String
  thumbnail : String
  chapters : List FileDict
deriving DecidableEq

/-- The try-block of part_000's extract handler: extract_info (metadata and
download in one call), get_chapters on info.get("chapters", []), the
no-chapters HTTPException(400), the split, the thumbnail curl (check=True),
and the response. Returns the performed actions and the outcome. -/
def extract_try (env : P0Env) : List Ev × Except PyExc P0Resp :=
  let output_dir := "temp/" ++ env.uid
  match env.extractInfo with
  | .error m => ([.download], .error (.downloadError m))
  | .ok info =>
    match get_chapters (info.chapters.getD []) with
    | .error k => ([.download], .error (.keyError k))
    | .ok [] => ([.download], .error (.httpException 400 "No chapters found in the video."))
    | .ok (c :: cs) =>
      let evs := split_events env.split info.filename (c :: cs) output_dir
      match splitRaised evs with
      | some e => ([.download, .split], .error e)
      | none =>
        let files := splitFiles evs
        let tu := info.thumbnail.getD ""
        if tu = "" then
          ([.download, .split, .respond],
           .ok { videoId := env.uid, title := info.title.getD "Untitled",
                 thumbnail := tu, chapters := files })
        else if env.thumbOk then
          ([.download, .split, .thumbnail, .respond],
           .ok { videoId := env.uid, title := info.title.getD "Untitled",
                 thumbnail := tu, chapters := files })
        else
          ([.download, .split, .thumbnail],
           .error (.calledProcessError "curl"))

/-- The whole extract handler of part_000: clean_temp_directory() runs first,
then the job directory is created, then the try-block runs; any exception the
try-block raises (a 400 HTTPException included) is re-raised by the
except-clause as HTTPException(500, str(e)). -/
def extract (env : P0Env) : List Ev × Except HttpErr P0Resp :=
  (Ev.prune :: Ev.mkJobDir :: (extract_try env).1,
   match (extract_try env).2 with
   | .ok r => .ok r
   | .error e => .error { status := 500, detail := pyStr e })

/-- The file response of the download endpoint. -/
structure FileResp where
  path : String
  media_type : String
  filename : String
deriving DecidableEq

/-- download_file from part_000 (download_chapter in worker.py is the same
shape): join TEMP_DIR, the job directory name and the filename, 404 when the
joined path does not exist, otherwise serve the file at that path. The
filename is joined without any sanitization. -/
def download_file (exists_ : String → Bool) (temp_dir filename : String) :
    Except HttpErr FileResp :=
  let path := os_path_join (os_path_join "temp" temp_dir) filename
  if exists_ path then
    .ok { path := path,
          media_type := if str_endswith filename ".mp4" then "video/mp4" else "audio/mpeg",
          filename := filename }
  else
    .error { status := 404, detail := "File not found" }

end Part0

namespace Worker

/-- One chapter dict as yt_dlp hands it to worker.py: start_time is read with
mandatory indexing, title and end_time with .get. -/
structure WChapter where
  title : Option String
  start_time : ℚ
  end_time : Option ℚ
deriving DecidableEq

/-- The metadata dict of get_video_info, as far as worker.py reads it;
chapters is None both when the key is absent and when its value is None. -/
structure WInfo where
  title : Option String
  thumbnail : Option String
  chapters : Option (List WChapter)
deriving DecidableEq

/-- clean_title from worker.py: every non-alphanumeric character becomes one
underscore; this copy has no length truncation. -/
def clean_title (title : String) : String :=
  ⟨title.data.map (fun c => if c.isAlphanum then c else '_')⟩

/-- get_duration from worker.py: hours = int(duration // 3600),
minutes = int((duration % 3600) // 60), seconds = int(duration % 60),
rendered "%02d:%02d:%02d". The end parameter is annotated float and there is
no None branch: an absent end_time raises a TypeError at end - start. -/
def get_duration (start : ℚ) (end_ : Option ℚ) : Except PyExc String :=
  match end_ with
  | none => .error (.typeError "unsupported operand type(s) for -: 'NoneType' and 'float'")
  | some e =>
    let d := e - start
    .ok (int_pad2 ⌊d / 3600⌋ ++ ":" ++ int_pad2 ⌊pyFloorMod d 3600 / 60⌋ ++ ":" ++
         int_pad2 (pyInt (pyFloorMod d 60)))

/-- The dict worker.py's split appends for one successful chapter. -/
structure WFile where
  path : String
  size : String
  duration : String
deriving DecidableEq

/-- Oracles for worker.py's split: whether the ffmpeg invocation for chapter
index i exits zero, and the "X.XX MB" string get_file_size reports. -/
structure WSplitEnv where
  trimOk : Nat → Bool
  sizeStr : String → String

/-- The loop of split_video_by_chapters from worker.py: one ffmpeg command
per chapter; a CalledProcessError is caught and the chapter skipped, but the
TypeError that get_duration raises on an absent end_time is not caught and
aborts the whole call. -/
def splitGo (env : WSplitEnv) (dir : String) : Nat → List WChapter → Except PyExc (List WFile)
  | _, [] => .ok []
  | i, c :: rest =>
    let path := dir ++ "/" ++ toString i ++ "_" ++
      clean_title (c.title.getD ("Chapter " ++ toString i)) ++ ".mp4"
    if env.trimOk i then
      match get_duration c.start_time c.end_time with
      | .error e => .error e
      | .ok dur =>
        match splitGo env dir (i + 1) rest with
        | .error e => .error e
        | .ok tl => .ok ({ path := path, size := env.sizeStr path, duration := dur } :: tl)
    else
      splitGo env dir (i + 1) rest

/-- split_video_by_chapters from worker.py. -/
def split_video_by_chapters (env : WSplitEnv) (input_path : String)
    (chapters : List WChapter) (output_dir : String) : Except PyExc (List WFile) :=
  splitGo env output_dir 1 chapters

/-- One chapter entry of the response body of worker.py's handler. -/
structure WEntry where
  title : String
  start_time : ℚ
  end_time : Option ℚ
  size : String
  duration : String
  mp4_download_url : String
  mp3_download_url : String
deriving DecidableEq

/-- The response body of worker.py's handler. -/
structure WResp where
  title : String
  thumbnail : String
  chapters : List WEntry
deriving DecidableEq

/-- The response comprehension of worker.py's handler over
zip(chapters, chapter_files): chapter["title"] raises a KeyError when the
title key is absent; the urls are built from the basename of the file's path,
the mp3 one by replacing ".mp4" with ".mp3". -/
def assemble (dirBase : String) : List (WChapter × WFile) → Except PyExc (List WEntry)
  | [] => .ok []
  | (c, f) :: rest =>
    match c.title with
    | none => .error (.keyError "title")
    | some t =>
      match assemble dirBase rest with
      | .error e => .error e
      | .ok tl =>
        .ok ({ title := t,
               start_time := c.start_time,
               end_time := c.end_time,
               size := f.size,
               duration := f.duration,
               mp4_download_url := "/api/download/" ++ dirBase ++ "/" ++ basename f.path,
               mp3_download_url := "/api/download/" ++ dirBase ++ "/" ++
                 pyReplace (basename f.path) ".mp4" ".mp3" } :: tl)

/-- Environment of one run of worker.py's /api/extract handler: the generated
uuid, the metadata returned by the two get_video_info calls, the
download_video outcome and the split oracles. -/
structure WEnv where
  uuid : String
  chaptersInfo : Option WInfo
  videoInfo : Option WInfo
  downloadPath : Option String
  split : WSplitEnv

/-- get_video_chapters from worker.py: info['chapters'] when the info fetch
succeeded and the key is present, else None. -/
def get_video_chapters (env : WEnv) : Option (List WChapter) :=
  env.chaptersInfo.bind WInfo.chapters

/-- The try-block of worker.py's api_extract_chapters: get_video_chapters,
the no-chapters HTTPException(400), a second get_video_info, download_video,
the split, and the zip-based response assembly. Returns the performed actions
and the outcome. -/
def api_try (env : WEnv) : List Ev × Except PyExc WResp :=
  let temp_dir := "temp/" ++ env.uuid
  match get_video_chapters env with
  | none => ([.metadataFetch], .error (.httpException 400 "No chapters found in this video"))
  | some [] => ([.metadataFetch], .error (.httpException 400 "No chapters found in this video"))
  | some (c :: cs) =>
    match env.videoInfo with
    | none => ([.metadataFetch, .metadataFetch],
               .error (.httpException 500 "Failed to fetch video info"))
    | some info =>
      match env.downloadPath with
      | none => ([.metadataFetch, .metadataFetch, .download],
                 .error (.httpException 500 "Failed to download video"))
      | some video_path =>
        match split_video_by_chapters env.split video_path (c :: cs) temp_dir with
        | .error e => ([.metadataFetch, .metadataFetch, .download, .split], .error e)
        | .ok files =>
          match assemble (basename temp_dir) ((c :: cs).zip files) with
          | .error e => ([.metadataFetch, .metadataFetch, .download, .split], .error e)
          | .ok entries =>
            ([.metadataFetch, .metadataFetch, .download, .split, .respond],
             .ok { title := info.title.getD "No Title Found",
                   thumbnail := info.thumbnail.getD "",
                   chapters := entries })

/-- The whole api_extract_chapters handler of worker.py: the job directory is
created first (no retention pruning happens anywhere in this handler — the
clean_temp_folder function of worker.py is never called), then the try-block
runs; any exception it raises (a 400 HTTPException included) is re-raised by
the except-clause as HTTPException(500, str(e)). -/
def api_extract_chapters (env : WEnv) : List Ev × Except HttpErr WResp :=
  (Ev.mkJobDir :: (api_try env).1,
   match (api_try env).2 with
   | .ok r => .ok r
   | .error e => .error { status := 500, detail := pyStr e })

end Worker

/-- Concrete marker list: the two-chapter example of the specification. -/
def ms2 : List Part0.RawChapter :=
  [{ title := some "Intro", start_time := some 0 },
   { title := some "Main", start_time := some 60 }]

/-- Concrete worker environment whose metadata carries an empty chapter
list. -/
def envW0 : Worker.WEnv :=
  { uuid := "u0",
    chaptersInfo := some { title := some "T", thumbnail := some "th", chapters := some [] },
    videoInfo := none,
    downloadPath := none,
    split := { trimOk := fun _ => true, sizeStr := fun _ => "1.00 MB" } }

/-- Concrete part_000 environment whose metadata has no chapters key. -/
def envP0 : Part0.P0Env :=
  { uid := "u0",
    extractInfo := .ok { title := some "T", thumbnail := none, chapters := none,
                         filename := "temp/u0/full_video.mp4" },
    split := { trimOk := fun _ => true, audioOk := fun _ => true, sizeMB := fun _ => 1 },
    thumbOk := true }

/-- Concrete worker environment with three chapters A, B, C in which the
ffmpeg trim of chapter 2 (B) fails and every other trim succeeds. -/
def envW1 : Worker.WEnv :=
  { uuid := "u1",
    chaptersInfo := some
      { title := some "T", thumbnail := some "th",
        chapters := some
          [{ title := some "A", start_time := 0, end_time := some 60 },
           { title := some "B", start_time := 60, end_time := some 120 },
           { title := some "C", start_time := 120, end_time := some 300 }] },
    videoInfo := some { title := some "T", thumbnail := some "th", chapters := none },
    downloadPath := some "temp/u1/full_video.mp4",
    split := { trimOk := fun i => i != 2, sizeStr := fun _ => "1.00 MB" } }

/-- Concrete working-directory listing of five entries with distinct creation
times. -/
def fs5 : List DirEntry :=
  [{ name := "a", ctime := 5 }, { name := "b", ctime := 1 }, { name := "c", ctime := 4 },
   { name := "d", ctime := 2 }, { name := "e", ctime := 3 }]

/-- Concrete chapter list produced by get_chapters: three chapters, the last
one open-ended. -/
def cs3 : List Part0.Chapter :=
  [{ title := "A", start_time := some 0, end_time := some 60 },
   { title := "B", start_time := some 60, end_time := some 120 },
   { title := "C", start_time := some 120, end_time := none }]

/-- Concrete split oracles in which the trim of chapter 2 fails and all other
invocations succeed. -/
def envSplitB : Part0.SplitEnv :=
  { trimOk := fun i => i != 2, audioOk := fun _ => true, sizeMB := fun _ => 1 }

/-- Concrete split oracles in which every trim succeeds and every mp3
transcode fails. -/
def envSplitC : Part0.SplitEnv :=
  { trimOk := fun _ => true, audioOk := fun _ => false, sizeMB := fun _ => 1 }

instance : IsTotal DirEntry (fun a b => a.ctime ≤ b.ctime) :=
  ⟨fun a b => Nat.le_total a.ctime b.ctime⟩

instance : IsTrans DirEntry (fun a b => a.ctime ≤ b.ctime) :=
  ⟨fun _ _ _ h1 h2 => Nat.le_trans h1 h2⟩

/-! Theorems. -/

theorem cleanLoop_eq (m : Nat) (l : List DirEntry) :
    cleanLoop m l = (l.take (l.length - m), l.drop (l.length - m)) := by
  induction l with
  | nil => simp [cleanLoop]
  | cons f rest ih =>
    rw [cleanLoop]
    by_cases h : m < (f :: rest).length
    · have h1 : (f :: rest).length - m = (rest.length - m) + 1 := by
        simp only [List.length_cons] at h ⊢
        omega
      simp only [if_pos h, ih, h1, List.take_succ_cons, List.drop_succ_cons]
    · have h1 : (f :: rest).length - m = 0 := by
        simp only [List.length_cons] at h ⊢
        omega
      simp only [if_neg h, h1, List.take_zero, List.drop_zero]

/-- C4: with more than N retained entries, the pruner deletes the oldest
entries (by creation time) until exactly N remain and keeps the N most
recently created ones untouched; with at most N entries it deletes
nothing. -/
theorem clean_temp_directory_spec (folders : List DirEntry) (n : Nat)
    (hdist : folders.Pairwise (fun a b => a.ctime ≠ b.ctime)) :
    (folders.length ≤ n → (clean_temp_directory folders n).1 = [] ∧
      (clean_temp_directory folders n).2.Perm folders) ∧
    (n < folders.length →
      (clean_temp_directory folders n).2.length = n ∧
      (clean_temp_directory folders n).1.length = folders.length - n ∧
      ((clean_temp_directory folders n).1 ++ (clean_temp_directory folders n).2).Perm folders ∧
      (∀ r ∈ (clean_temp_directory folders n).1, ∀ k ∈ (clean_temp_directory folders n).2,
        r.ctime < k.ctime)) := by
  have hperm : (List.insertionSort (fun a b => a.ctime ≤ b.ctime) folders).Perm folders :=
    List.perm_insertionSort _ folders
  have hsorted : List.Sorted (fun a b => a.ctime ≤ b.ctime)
      (List.insertionSort (fun a b => a.ctime ≤ b.ctime) folders) :=
    List.sorted_insertionSort _ folders
  have hlen : (List.insertionSort (fun a b => a.ctime ≤ b.ctime) folders).length =
      folders.length := hperm.length_eq
  unfold clean_temp_directory
  rw [cleanLoop_eq]
  set sorted := List.insertionSort (fun a b => a.ctime ≤ b.ctime) folders with hs
  constructor
  · intro hle
    have h0 : sorted.length - n = 0 := by omega
    rw [h0]
    exact ⟨by simp, by simpa using hperm⟩
  · intro hgt
    have hTD := List.take_append_drop (sorted.length - n) sorted
    refine ⟨?_, ?_, ?_, ?_⟩
    · rw [List.length_drop]; omega
    · rw [List.length_take]; simp only [hlen]; omega
    · rw [hTD]; exact hperm
    · have hne : sorted.Pairwise (fun a b => a.ctime ≠ b.ctime) :=
        (hperm.pairwise_iff (fun h => h.symm)).mpr hdist
      have hle : sorted.Pairwise (fun a b => a.ctime ≤ b.ctime) := hsorted
      rw [← hTD] at hne hle
      intro r hr k hk
      exact lt_of_le_of_ne ((List.pairwise_append.mp hle).2.2 r hr k hk)
        ((List.pairwise_append.mp hne).2.2 r hr k hk)

theorem clean_temp_directory_spec_witness :
    (clean_temp_directory fs5 2).2.length = 2 :=
  ((clean_temp_directory_spec fs5 2 (by decide)).2 (by decide)).1

theorem getChaptersGo_ok (ms : List Part0.RawChapter) :
    ∀ i : Nat, (∀ c ∈ ms.tail, c.start_time ≠ none) →
    ∃ cs, Part0.getChaptersGo i ms = .ok cs ∧
      cs.length = ms.length ∧
      cs.map Part0.Chapter.start_time = ms.map Part0.RawChapter.start_time ∧
      cs.map Part0.Chapter.end_time =
        ms.tail.map Part0.RawChapter.start_time ++ (if ms.isEmpty then [] else [none]) := by
  induction ms with
  | nil => exact fun i _ => ⟨[], rfl, rfl, rfl, by simp⟩
  | cons c rest ih =>
    intro i h
    cases rest with
    | nil =>
      refine ⟨[{ title := c.title.getD ("Chapter " ++ toString (i + 1)),
                 start_time := c.start_time, end_time := none }], rfl, rfl, rfl, ?_⟩
      simp
    | cons next rest2 =>
      have hnext : next.start_time ≠ none := h next (by simp)
      obtain ⟨e, he⟩ : ∃ e, next.start_time = some e := by
        cases hne : next.start_time with
        | none => exact absurd hne hnext
        | some e => exact ⟨e, rfl⟩
      have htail : ∀ x ∈ (next :: rest2).tail, x.start_time ≠ none := by
        intro x hx
        exact h x (by simpa using Or.inr hx)
      obtain ⟨tl, htl, hlen, hst, hend⟩ := ih (i + 1) htail
      refine ⟨{ title := c.title.getD ("Chapter " ++ toString (i + 1)),
                start_time := c.start_time, end_time := some e } :: tl, ?_, ?_, ?_, ?_⟩
      · simp [Part0.getChaptersGo, he, htl]
      · simpa using hlen
      · simpa using hst
      · simp only [List.map_cons, hend, List.tail_cons, List.isEmpty_cons, he]
        simp

/-- C1: on a marker sequence of length at least one with strictly increasing
start times, get_chapters produces exactly as many chapters, in order, with
chapter i's end_time equal to marker i+1's start_time for every non-final i
and the last chapter's end_time open (None). -/
theorem get_chapters_spec (ms : List Part0.RawChapter) (ts : List ℚ)
    (hk : 1 ≤ ms.length)
    (hts : ms.map Part0.RawChapter.start_time = ts.map some)
    (hinc : ts.Chain' (· < ·)) :
    ∃ cs, Part0.get_chapters ms = .ok cs ∧
      cs.length = ms.length ∧
      cs.map Part0.Chapter.start_time = ms.map Part0.RawChapter.start_time ∧
      (∀ i, i + 1 < ms.length →
        cs[i]?.map Part0.Chapter.end_time = ms[i + 1]?.map Part0.RawChapter.start_time) ∧
      (cs.map Part0.Chapter.end_time).getLast? = some none := by
  have hall : ∀ c ∈ ms, c.start_time ≠ none := by
    intro c hc hnone
    have hmem : c.start_time ∈ ms.map Part0.RawChapter.start_time :=
      List.mem_map_of_mem _ hc
    rw [hts] at hmem
    obtain ⟨t, _, ht⟩ := List.mem_map.mp hmem
    rw [hnone] at ht
    cases ht
  have htail : ∀ c ∈ ms.tail, c.start_time ≠ none :=
    fun c hc => hall c (List.tail_subset ms hc)
  obtain ⟨cs, hok, hlen, hst, hend⟩ := getChaptersGo_ok ms 0 htail
  have hempty : ms.isEmpty = false := by
    cases ms with
    | nil => simp at hk
    | cons a l => rfl
  rw [hempty] at hend
  simp only [if_neg Bool.false_ne_true] at hend
  refine ⟨cs, hok, hlen, hst, ?_, ?_⟩
  · intro i hi
    have h1 : cs[i]?.map Part0.Chapter.end_time = (cs.map Part0.Chapter.end_time)[i]? :=
      (List.getElem?_map _ _ _).symm
    rw [h1, hend, List.getElem?_append]
    have hilt : i < (ms.tail.map Part0.RawChapter.start_time).length := by
      rw [List.length_map, List.length_tail]
      omega
    rw [if_pos hilt, List.getElem?_map, List.getElem?_tail]
  · rw [hend]
    exact List.getLast?_concat _

theorem get_chapters_spec_witness :
    ∃ cs, Part0.get_chapters ms2 = .ok cs ∧
      cs.length = ms2.length ∧
      cs.map Part0.Chapter.start_time = ms2.map Part0.RawChapter.start_time ∧
      (∀ i, i + 1 < ms2.length →
        cs[i]?.map Part0.Chapter.end_time = ms2[i + 1]?.map Part0.RawChapter.start_time) ∧
      (cs.map Part0.Chapter.end_time).getLast? = some none :=
  get_chapters_spec ms2 [0, 60] (by decide) (by decide) (by simp [List.chain'_cons])

theorem Part0.get_duration_ok_of_start {c : Part0.Chapter} (h : c.start_time ≠ none) :
    Part0.get_duration c.start_time c.end_time = .ok (Part0.durOf c) := by
  rcases he : c.end_time with _ | e
  · simp [Part0.get_duration, Part0.durOf, he]
  · rcases hs : c.start_time with _ | s
    · exact absurd hs h
    · simp [Part0.get_duration, Part0.durOf, he, hs]

theorem Part0.splitGo_cons (env : Part0.SplitEnv) (dir : String) (i : Nat)
    (c : Part0.Chapter) (rest : List Part0.Chapter) (h : c.start_time ≠ none) :
    Part0.splitGo env dir i (c :: rest) =
      Part0.stepEvs env dir i c ++ Part0.splitGo env dir (i + 1) rest := by
  simp only [Part0.splitGo, Part0.stepEvs, Part0.get_duration_ok_of_start h]
  cases htr : env.trimOk i <;> simp

theorem Part0.mem_trim_splitGo (env : Part0.SplitEnv) (dir : String) :
    ∀ (cs : List Part0.Chapter) (i p : Nat) (hp : p < cs.length),
      (∀ c ∈ cs, c.start_time ≠ none) →
      Part0.SplitEv.trim (i + p) (Part0.mp4Name dir (i + p) (cs.get ⟨p, hp⟩).title) ∈
        Part0.splitGo env dir i cs := by
  intro cs
  induction cs with
  | nil => intro i p hp; simp at hp
  | cons c rest ih =>
    intro i p hp hstart
    rw [Part0.splitGo_cons env dir i c rest (hstart c (List.mem_cons_self c rest))]
    cases p with
    | zero =>
      apply List.mem_append_left
      cases htr : env.trimOk i <;> simp [Part0.stepEvs, htr]
    | succ q =>
      apply List.mem_append_right
      have hq : q < rest.length := by
        simp only [List.length_cons] at hp
        omega
      have hmem := ih (i + 1) q hq (fun x hx => hstart x (List.mem_cons_of_mem c hx))
      have harith : i + 1 + q = i + (q + 1) := by omega
      rw [harith] at hmem
      simpa [List.get_cons_succ] using hmem

theorem Part0.mem_audio_splitGo (env : Part0.SplitEnv) (dir : String) :
    ∀ (cs : List Part0.Chapter) (i p : Nat) (hp : p < cs.length),
      (∀ c ∈ cs, c.start_time ≠ none) →
      env.trimOk (i + p) = true →
      Part0.SplitEv.audio (i + p) (Part0.mp3Name dir (i + p) (cs.get ⟨p, hp⟩).title) ∈
        Part0.splitGo env dir i cs := by
  intro cs
  induction cs with
  | nil => intro i p hp; simp at hp
  | cons c rest ih =>
    intro i p hp hstart htr
    rw [Part0.splitGo_cons env dir i c rest (hstart c (List.mem_cons_self c rest))]
    cases p with
    | zero =>
      apply List.mem_append_left
      have htr0 : env.trimOk i = true := by simpa using htr
      simp [Part0.stepEvs, htr0]
    | succ q =>
      apply List.mem_append_right
      have hq : q < rest.length := by
        simp only [List.length_cons] at hp
        omega
      have harith : i + 1 + q = i + (q + 1) := by omega
      have hmem := ih (i + 1) q hq (fun x hx => hstart x (List.mem_cons_of_mem c hx))
        (by rw [harith]; exact htr)
      rw [harith] at hmem
      simpa [List.get_cons_succ] using hmem

theorem Part0.mem_record_splitGo (env : Part0.SplitEnv) (dir : String) :
    ∀ (cs : List Part0.Chapter) (i p : Nat) (hp : p < cs.length),
      (∀ c ∈ cs, c.start_time ≠ none) →
      env.trimOk (i + p) = true →
      Part0.SplitEv.record (i + p)
          (Part0.mkFileDict env dir (i + p) (cs.get ⟨p, hp⟩) (Part0.durOf (cs.get ⟨p, hp⟩))) ∈
        Part0.splitGo env dir i cs := by
  intro cs
  induction cs with
  | nil => intro i p hp; simp at hp
  | cons c rest ih =>
    intro i p hp hstart htr
    rw [Part0.splitGo_cons env dir i c rest (hstart c (List.mem_cons_self c rest))]
    cases p with
    | zero =>
      apply List.mem_append_left
      have htr0 : env.trimOk i = true := by simpa using htr
      simp [Part0.stepEvs, htr0]
    | succ q =>
      apply List.mem_append_right
      have hq : q < rest.length := by
        simp only [List.length_cons] at hp
        omega
      have harith : i + 1 + q = i + (q + 1) := by omega
      have hmem := ih (i + 1) q hq (fun x hx => hstart x (List.mem_cons_of_mem c hx))
        (by rw [harith]; exact htr)
      rw [harith] at hmem
      simpa [List.get_cons_succ] using hmem

theorem Part0.audio_mem_splitGo_trimOk (env : Part0.SplitEnv) (dir : String) :
    ∀ (cs : List Part0.Chapter) (i j : Nat) (s : String),
      (∀ c ∈ cs, c.start_time ≠ none) →
      Part0.SplitEv.audio j s ∈ Part0.splitGo env dir i cs →
      env.trimOk j = true := by
  intro cs
  induction cs with
  | nil => intro i j s _ hmem; simp [Part0.splitGo] at hmem
  | cons c rest ih =>
    intro i j s hstart hmem
    rw [Part0.splitGo_cons env dir i c rest (hstart c (List.mem_cons_self c rest))] at hmem
    rcases List.mem_append.mp hmem with h1 | h2
    · cases htr : env.trimOk i <;> simp [Part0.stepEvs, htr] at h1
      obtain ⟨hj, _⟩ := h1
      rw [hj]
      exact htr
    · exact ih (i + 1) j s (fun x hx => hstart x (List.mem_cons_of_mem c hx)) h2

theorem Part0.record_mem_splitGo_inv (env : Part0.SplitEnv) (dir : String) :
    ∀ (cs : List Part0.Chapter) (i j : Nat) (f : Part0.FileDict),
      (∀ c ∈ cs, c.start_time ≠ none) →
      Part0.SplitEv.record j f ∈ Part0.splitGo env dir i cs →
      env.trimOk j = true ∧
      ∃ p, ∃ hp : p < cs.length, j = i + p ∧
        f = Part0.mkFileDict env dir j (cs.get ⟨p, hp⟩) (Part0.durOf (cs.get ⟨p, hp⟩)) := by
  intro cs
  induction cs with
  | nil => intro i j f _ hmem; simp [Part0.splitGo] at hmem
  | cons c rest ih =>
    intro i j f hstart hmem
    rw [Part0.splitGo_cons env dir i c rest (hstart c (List.mem_cons_self c rest))] at hmem
    rcases List.mem_append.mp hmem with h1 | h2
    · cases htr : env.trimOk i <;> simp [Part0.stepEvs, htr] at h1
      obtain ⟨hj, hf⟩ := h1
      subst hj
      refine ⟨htr, 0, by simp, by simp, ?_⟩
      simpa using hf
    · obtain ⟨htr, p, hp, hj, hf⟩ :=
        ih (i + 1) j f (fun x hx => hstart x (List.mem_cons_of_mem c hx)) h2
      refine ⟨htr, p + 1, by simpa using Nat.succ_lt_succ hp, by omega, ?_⟩
      rw [hf]
      simp [List.get_cons_succ]

/-- C3: when the trim of the chapter at position p fails with a non-zero
exit, no mp3 transcode is attempted for it and no record is appended for it,
while every chapter still gets its trim attempted and every other chapter
whose trim succeeds still gets its record appended — one chapter's trim
failure never aborts the rest of the loop. -/
theorem split_skips_failed_chapter (env : Part0.SplitEnv) (input_path output_dir : String)
    (cs : List Part0.Chapter) (p : Nat) (hp : p < cs.length)
    (hstart : ∀ c ∈ cs, c.start_time ≠ none)
    (hfail : env.trimOk (p + 1) = false) :
    (∀ s, Part0.SplitEv.audio (p + 1) s ∉
      Part0.split_events env input_path cs output_dir) ∧
    (∀ f, Part0.SplitEv.record (p + 1) f ∉
      Part0.split_events env input_path cs output_dir) ∧
    (∀ q, q < cs.length → ∃ s, Part0.SplitEv.trim (q + 1) s ∈
      Part0.split_events env input_path cs output_dir) ∧
    (∀ q, q < cs.length → q ≠ p → env.trimOk (q + 1) = true →
      ∃ f, Part0.SplitEv.record (q + 1) f ∈
        Part0.split_events env input_path cs output_dir) := by
  refine ⟨?_, ?_, ?_, ?_⟩
  · intro s hmem
    have htr := Part0.audio_mem_splitGo_trimOk env output_dir cs 1 (p + 1) s hstart hmem
    rw [hfail] at htr
    cases htr
  · intro f hmem
    have htr := (Part0.record_mem_splitGo_inv env output_dir cs 1 (p + 1) f hstart hmem).1
    rw [hfail] at htr
    cases htr
  · intro q hq
    have hmem := Part0.mem_trim_splitGo env output_dir cs 1 q hq hstart
    rw [show 1 + q = q + 1 from by omega] at hmem
    exact ⟨_, hmem⟩
  · intro q hq _ htr
    have hmem := Part0.mem_record_splitGo env output_dir cs 1 q hq hstart
      (by rw [show 1 + q = q + 1 from by omega]; exact htr)
    rw [show 1 + q = q + 1 from by omega] at hmem
    exact ⟨_, hmem⟩

theorem split_skips_failed_chapter_witness :
    ∃ f, Part0.SplitEv.record (2 + 1) f ∈
      Part0.split_events envSplitB "in.mp4" cs3 "temp/u" :=
  (split_skips_failed_chapter envSplitB "in.mp4" "temp/u" cs3 1 (by decide) (by decide)
    (by decide)).2.2.2 2 (by decide) (by decide) (by decide)

/-- C5: for the chapter at position p with title t, the trim writes
output_dir/(p+1)_(clean_title t).mp4 and the transcode writes
output_dir/(p+1)_(clean_title t).mp3, every record for that index carries the
mp4 path; clean_title replaces every non-alphanumeric character by one
underscore and truncates to 80 characters, and maps "Intro: Part 1!" to
"Intro__Part_1_". -/
theorem split_output_naming (env : Part0.SplitEnv) (input_path output_dir : String)
    (cs : List Part0.Chapter) (p : Nat) (hp : p < cs.length)
    (hstart : ∀ c ∈ cs, c.start_time ≠ none)
    (hok : env.trimOk (p + 1) = true) :
    Part0.SplitEv.trim (p + 1) (Part0.mp4Name output_dir (p + 1) (cs.get ⟨p, hp⟩).title) ∈
      Part0.split_events env input_path cs output_dir ∧
    Part0.SplitEv.audio (p + 1) (Part0.mp3Name output_dir (p + 1) (cs.get ⟨p, hp⟩).title) ∈
      Part0.split_events env input_path cs output_dir ∧
    (∀ f, Part0.SplitEv.record (p + 1) f ∈ Part0.split_events env input_path cs output_dir →
      f.path = Part0.mp4Name output_dir (p + 1) (cs.get ⟨p, hp⟩).title) ∧
    (∀ d i t, Part0.mp4Name d i t = d ++ "/" ++ toString i ++ "_" ++ Part0.clean_title t ++ ".mp4") ∧
    (∀ d i t, Part0.mp3Name d i t = d ++ "/" ++ toString i ++ "_" ++ Part0.clean_title t ++ ".mp3") ∧
    (∀ t : String, (Part0.clean_title t).data =
      (t.data.take 80).map (fun ch => if ch.isAlphanum then ch else '_')) ∧
    Part0.clean_title "Intro: Part 1!" = "Intro__Part_1_" := by
  refine ⟨?_, ?_, ?_, fun _ _ _ => rfl, fun _ _ _ => rfl, ?_, by decide⟩
  · have hmem := Part0.mem_trim_splitGo env output_dir cs 1 p hp hstart
    rw [show 1 + p = p + 1 from by omega] at hmem
    exact hmem
  · have hmem := Part0.mem_audio_splitGo env output_dir cs 1 p hp hstart
      (by rw [show 1 + p = p + 1 from by omega]; exact hok)
    rw [show 1 + p = p + 1 from by omega] at hmem
    exact hmem
  · intro f hmem
    obtain ⟨_, q, hq, hj, hf⟩ :=
      Part0.record_mem_splitGo_inv env output_dir cs 1 (p + 1) f hstart hmem
    have hqp : q = p := by omega
    subst hqp
    rw [hf]
    rfl
  · intro t
    show (t.data.map (fun ch => if ch.isAlphanum then ch else '_')).take 80 = _
    rw [List.map_take]

theorem split_output_naming_witness :
    Part0.SplitEv.trim 1 (Part0.mp4Name "temp/u" 1 "A") ∈
      Part0.split_events envSplitC "in.mp4" cs3 "temp/u" ∧
    Part0.clean_title "Intro: Part 1!" = "Intro__Part_1_" :=
  ⟨(split_output_naming envSplitC "in.mp4" "temp/u" cs3 0 (by decide) (by decide)
      (by decide)).1,
   (split_output_naming envSplitC "in.mp4" "temp/u" cs3 0 (by decide) (by decide)
      (by decide)).2.2.2.2.2.2⟩

/-- C7: when the trim of the chapter at position p succeeds but its mp3
transcode fails, the record for that chapter is still appended, built from
the video output alone: the mp4 path, its size, and the chapter's duration. -/
theorem split_records_artifact_despite_audio_failure
    (env : Part0.SplitEnv) (input_path output_dir : String)
    (cs : List Part0.Chapter) (p : Nat) (hp : p < cs.length)
    (hstart : ∀ c ∈ cs, c.start_time ≠ none)
    (htrim : env.trimOk (p + 1) = true)
    (haudio : env.audioOk (p + 1) = false) :
    ∃ f, Part0.SplitEv.record (p + 1) f ∈ Part0.split_events env input_path cs output_dir ∧
      f.path = Part0.mp4Name output_dir (p + 1) (cs.get ⟨p, hp⟩).title ∧
      f.size = env.sizeMB (Part0.mp4Name output_dir (p + 1) (cs.get ⟨p, hp⟩).title) ∧
      Part0.get_duration (cs.get ⟨p, hp⟩).start_time (cs.get ⟨p, hp⟩).end_time =
        .ok f.duration := by
  have hmem := Part0.mem_record_splitGo env output_dir cs 1 p hp hstart
    (by rw [show 1 + p = p + 1 from by omega]; exact htrim)
  rw [show 1 + p = p + 1 from by omega] at hmem
  exact ⟨_, hmem, rfl, rfl,
    Part0.get_duration_ok_of_start (hstart _ (cs.get_mem _ _))⟩

theorem split_records_artifact_despite_audio_failure_witness :
    ∃ f, Part0.SplitEv.record (0 + 1) f ∈
        Part0.split_events envSplitC "in.mp4" cs3 "temp/u" ∧
      f.path = Part0.mp4Name "temp/u" (0 + 1) "A" ∧
      f.size = envSplitC.sizeMB (Part0.mp4Name "temp/u" (0 + 1) "A") ∧
      Part0.get_duration (some 0) (some 60) = .ok f.duration :=
  split_records_artifact_despite_audio_failure envSplitC "in.mp4" "temp/u" cs3 0
    (by decide) (by decide) (by decide) (by decide)

theorem str_timedelta_small (n : ℕ) (h : n < 86400) :
    str_timedelta (n : ℤ) =
      toString (n / 3600) ++ ":" ++ pad2 (n % 3600 / 60) ++ ":" ++ pad2 (n % 60) := by
  have h86 : (0 : ℤ) ≤ 86400 := by norm_num
  have hn : (0 : ℤ) ≤ (n : ℤ) := Int.ofNat_nonneg n
  have hlt : (n : ℤ) < 86400 := by exact_mod_cast h
  unfold str_timedelta
  rw [Int.fdiv_eq_ediv _ h86, Int.ediv_eq_zero_of_lt hn hlt,
    Int.fmod_eq_emod _ h86, Int.emod_eq_of_lt hn hlt]
  simp

theorem pyInt_eq_floor_of_nonneg {q : ℚ} (h : 0 ≤ q) : pyInt q = ⌊q⌋ := by
  unfold pyInt
  rw [Int.tdiv_eq_ediv (Rat.num_nonneg.mpr h) (Int.ofNat_nonneg q.den)]
  exact (Rat.floor_def).symm

/-- C6: the recorded duration of a chapter equals end_time minus start_time,
truncated to whole seconds and rendered hours:minutes:seconds (for durations
under one day), and an absent end_time yields the string "Unknown" rather
than an error — for the get_duration copy of part_000; the worker.py copy has
no None branch (see its counterexample). -/
theorem part0_get_duration_spec (start e : ℚ)
    (h0 : 0 ≤ e - start) (h1 : e - start < 86400) :
    (∀ s : Option ℚ, Part0.get_duration s none = .ok "Unknown") ∧
    ∃ n : ℕ, (n : ℚ) ≤ e - start ∧ e - start < (n : ℚ) + 1 ∧
      Part0.get_duration (some start) (some e) =
        .ok (toString (n / 3600) ++ ":" ++ pad2 (n % 3600 / 60) ++ ":" ++ pad2 (n % 60)) := by
  constructor
  · intro s
    cases s <;> rfl
  · have hfl : (0 : ℤ) ≤ ⌊e - start⌋ := Int.floor_nonneg.mpr h0
    have hto : (⌊e - start⌋.toNat : ℤ) = ⌊e - start⌋ := Int.toNat_of_nonneg hfl
    have htoQ : ((⌊e - start⌋.toNat : ℕ) : ℚ) = ((⌊e - start⌋ : ℤ) : ℚ) := by
      exact_mod_cast hto
    refine ⟨⌊e - start⌋.toNat, ?_, ?_, ?_⟩
    · rw [htoQ]
      exact Int.floor_le _
    · rw [htoQ]
      exact Int.lt_floor_add_one _
    · have hgd : Part0.get_duration (some start) (some e) =
          (Except.ok (str_timedelta (pyInt (e - start))) : Except PyExc String) := rfl
      have hnlt : ⌊e - start⌋.toNat < 86400 := by
        have hq : ((⌊e - start⌋ : ℤ) : ℚ) ≤ e - start := Int.floor_le _
        have hzlt : (⌊e - start⌋ : ℤ) < 86400 := by
          by_contra hcon
          push_neg at hcon
          have hge : ((86400 : ℤ) : ℚ) ≤ e - start := le_trans (by exact_mod_cast hcon) hq
          norm_num at hge
          exact absurd h1 (not_lt.mpr hge)
        omega
      rw [hgd, pyInt_eq_floor_of_nonneg h0,
        show (⌊e - start⌋ : ℤ) = ((⌊e - start⌋.toNat : ℕ) : ℤ) from hto.symm,
        str_timedelta_small _ hnlt]
      norm_cast

theorem part0_get_duration_spec_witness :
    (∀ s : Option ℚ, Part0.get_duration s none = .ok "Unknown") ∧
    ∃ n : ℕ, (n : ℚ) ≤ (60 : ℚ) - 0 ∧ (60 : ℚ) - 0 < (n : ℚ) + 1 ∧
      Part0.get_duration (some 0) (some 60) =
        .ok (toString (n / 3600) ++ ":" ++ pad2 (n % 3600 / 60) ++ ":" ++ pad2 (n % 60)) :=
  part0_get_duration_spec 0 60 (by norm_num) (by norm_num)

/-- C6 counterexample: worker.py's get_duration copy raises a TypeError when
end_time is absent — the recorded duration is an error there, never the
string "Unknown". -/
theorem worker_get_duration_none_is_error :
    Worker.get_duration 0 none =
      .error (PyExc.typeError "unsupported operand type(s) for -: 'NoneType' and 'float'") ∧
    Worker.get_duration 0 none ≠ .ok "Unknown" := by
  refine ⟨rfl, fun hc => ?_⟩
  rw [show Worker.get_duration 0 none =
    .error (PyExc.typeError "unsupported operand type(s) for -: 'NoneType' and 'float'")
    from rfl] at hc
  exact Except.noConfusion hc

/-- C2: on a request whose video metadata has an empty or absent chapter
list, both handlers do reject the request with no artifacts — but the
HTTPException(400) they raise is caught by their own blanket except-clause
and re-raised as HTTP 500, so the client receives a server error whose
detail merely quotes the intended 400, not the client error the claim and
the code's own status_code=400 intend. -/
theorem extract_no_chapters_responds_500 :
    (Worker.api_extract_chapters envW0).2 =
      .error { status := 500, detail := "400: No chapters found in this video" } ∧
    (Part0.extract envP0).2 =
      .error { status := 500, detail := "400: No chapters found in the video." } :=
  ⟨rfl, rfl⟩

/-- C8: the download handler performs no path-traversal rejection: with the
job directory present, requesting the filename ".." passes the existence
check and is served, although the served path resolves to the temp root —
outside the job's directory; only a missing file yields the 404. -/
theorem download_file_serves_path_traversal :
    Part0.download_file (fun p => p == "temp/job1/..") "job1" ".." =
      .ok { path := "temp/job1/..", media_type := "audio/mpeg", filename := ".." } ∧
    resolvePath "temp/job1/.." = ["temp"] ∧
    (resolvePath "temp/job1/..").take 2 ≠ ["temp", "job1"] ∧
    Part0.download_file (fun _ => false) "job1" "missing.mp4" =
      .error { status := 404, detail := "File not found" } :=
  ⟨rfl, by decide, by decide, rfl⟩

/-- C9 (amended): in part_000's extract handler the retention pruner runs
strictly first — before the job directory is created and before any other
action of the request. -/
theorem extract_runs_pruner_first (env : Part0.P0Env) :
    ∃ rest, (Part0.extract env).1 = Ev.prune :: Ev.mkJobDir :: rest ∧
      Ev.prune ∉ rest ∧ Ev.mkJobDir ∉ rest := by
  refine ⟨(Part0.extract_try env).1, rfl, ?_, ?_⟩ <;>
  · unfold Part0.extract_try
    rcases env.extractInfo with m | info
    · simp
    · rcases hc : Part0.get_chapters (info.chapters.getD []) with k | cs
      · simp [hc]
      · rcases cs with _ | ⟨c, cs⟩
        · simp [hc]
        · simp only [hc]
          rcases hr : Part0.splitRaised (Part0.split_events env.split info.filename (c :: cs)
            ("temp/" ++ env.uid)) with _ | ex
          · by_cases ht : info.thumbnail.getD "" = ""
            · simp [hr, ht]
            · by_cases hb : env.thumbOk = true <;> simp [hr, ht, hb]
          · simp [hr]

theorem extract_runs_pruner_first_witness :
    ∃ rest, (Part0.extract envP0).1 = Ev.prune :: Ev.mkJobDir :: rest ∧
      Ev.prune ∉ rest ∧ Ev.mkJobDir ∉ rest :=
  extract_runs_pruner_first envP0

/-- C9 counterexample: worker.py's handler creates the job directory and
proceeds without the retention pruner ever running (clean_temp_folder is
defined but never called), so the pruner does not run before the job
starts. -/
theorem worker_extract_never_prunes :
    Ev.prune ∉ (Worker.api_extract_chapters envW0).1 ∧
    Ev.mkJobDir ∈ (Worker.api_extract_chapters envW0).1 := by decide

/-- C10: with three chapters A, B, C and the trim of B failing, worker.py's
response zips the full three-chapter list with the two produced files: the
entry titled "B" carries the artifact of chapter C (its download urls point
at 3_C), so size, duration and urls do not come from the same chapter once
any chapter is skipped. -/
theorem worker_response_mispairs_artifacts :
    ((Worker.api_extract_chapters envW1).2.toOption.map
      (fun r => r.chapters.map (fun e => (e.title, e.mp4_download_url, e.mp3_download_url)))) =
    some [("A", "/api/download/u1/1_A.mp4", "/api/download/u1/1_A.mp3"),
          ("B", "/api/download/u1/3_C.mp4", "/api/download/u1/3_C.mp3")] := by decide
